import Mathlib

/-!
Verification of the starlette-msgspec routing/OpenAPI layer.

This file gives a shallow embedding of the library's two source modules:

* `router.py` — the `MsgspecRouter.route` decorator: annotation inspection,
  body-parameter detection, route-record construction, and the request
  endpoint that decodes the payload, calls the handler, and encodes the
  result;
* `middleware.py` — `OpenAPIMiddleware`: ASGI dispatch for `/openapi.json`
  and `/docs`, lazy introspection, OpenAPI document assembly
  (`generate_openapi_schema`) and the `$defs` → `components/schemas`
  rewriting pass (`_convert_refs_to_components`).

JSON values are modelled as an inductive tree; JSON numbers are exact
rationals (the concrete payloads in all claims are exactly representable, so
no floating-point behaviour is at issue).  The external msgspec codec and
schema generator are modelled from their documented behaviour where the
source calls into them; each such definition says so in its doc comment.
-/

/-- A JSON value.  Objects and arrays are ordered, as Python dicts/lists are;
object keys may in principle repeat in this model, but no value built by the
embedding or by the modelled generator ever repeats a key. -/
inductive Json where
  | null : Json
  | bool (b : Bool) : Json
  | num (q : Rat) : Json
  | str (s : String) : Json
  | arr (items : List Json) : Json
  | obj (entries : List (String × Json)) : Json

/-- The shared `components.schemas` mapping, threaded through the rewriting
pass exactly like the mutable `components_schemas` dict in the source. -/
abbrev Comps := List (String × Json)

/-- Look a key up in a JSON object (Python `d[k]` / `d.get(k)`); `none` on
non-objects. -/
def objLookup : Json → String → Option Json
  | .obj entries, k => entries.lookup k
  | _, _ => none

/-- Python `d[k]` where the key is known to exist; defaults to `null`. -/
def objGetD (j : Json) (k : String) : Json :=
  (objLookup j k).getD .null

/-- Characters of the local-definition reference prefix `#/$defs/`. -/
def defsChars : List Char := "#/$defs/".data

/-- Characters of the shared-component reference prefix. -/
def compChars : List Char := "#/components/schemas/".data

/-- Model of Python `value.startswith("#/$defs/")`. -/
def startswithDefs (s : String) : Bool :=
  defsChars.isPrefixOf s.data

/-- Model of Python `value.replace("#/$defs/", "")`: remove every occurrence
of the prefix from the character stream. -/
def stripDefsAux : List Char → List Char
  | [] => []
  | c :: cs =>
    if defsChars.isPrefixOf (c :: cs) then stripDefsAux ((c :: cs).drop 8)
    else c :: stripDefsAux cs
termination_by l => l.length
decreasing_by
  · simp [List.length_drop]; omega
  · simp

/-- The rewritten reference `f"#/components/schemas/{{name}}"` built from
`value.replace("#/$defs/", "")` (source `middleware.py` lines 288-289, 296-297). -/
def rewriteRef (s : String) : String :=
  String.mk (compChars ++ stripDefsAux s.data)

/-- Is this JSON value a string starting with `#/$defs/`?  Mirrors the
source's `isinstance(value, str) and value.startswith("#/$defs/")`. -/
def isDefsRefStr : Json → Bool
  | .str s => startswithDefs s
  | _ => false

/-- Rewrite a `$ref` value string in place (identity on non-strings, which
the guard rules out). -/
def rewriteRefVal : Json → Json
  | .str s => .str (rewriteRef s)
  | v => v

/-- Is this JSON value an object? (`isinstance(value, dict)`). -/
def isObjB : Json → Bool
  | .obj _ => true
  | _ => false

/-- The `$defs`-hoisting loop of `_convert_refs_to_components`
(`middleware.py` lines 279-281): each local definition is copied into the
shared mapping only when its name is not already a key there — first writer
wins, the value itself is never compared. -/
def hoistDefs (defs : List (String × Json)) (comps : Comps) : Comps :=
  defs.foldl (fun acc kv => if (acc.lookup kv.1).isSome then acc else acc ++ [kv]) comps

mutual

/-- `OpenAPIMiddleware._convert_refs_to_components` (`middleware.py` lines
274-314), with the mutable `components_schemas` dict made an explicit
state.  On a dict: hoist a root-level `$defs` block (if its value is a dict,
as it always is in generator output; the source would raise otherwise),
delete it, and rebuild the remaining entries, rewriting `$ref` string values
that carry the `#/$defs/` prefix, recursing into dict values and into dict
elements of list values.  The source's extra root-level `$ref` rewrite
inside the `$defs` branch (lines 287-289) is subsumed by the entry loop's
rewrite (lines 294-297) and is therefore represented once. -/
def convert_refs_to_components : Json → Comps → Json × Comps
  | .obj entries, comps =>
    let comps1 := match entries.lookup "$defs" with
      | some (.obj defs) => hoistDefs defs comps
      | _ => comps
    let p := convertEntries entries comps1
    (.obj p.1, p.2)
  | .arr items, comps =>
    let p := convertItems items comps
    (.arr p.1, p.2)
  | j, comps => (j, comps)

/-- The entry-rebuilding loop of `_convert_refs_to_components` (lines
292-307).  A root `$defs` entry (already hoisted) is dropped, matching the
source's `del schema_obj["$defs"]` before the loop. -/
def convertEntries : List (String × Json) → Comps → List (String × Json) × Comps
  | [], comps => ([], comps)
  | (k, v) :: rest, comps =>
    if k == "$defs" && isObjB v then convertEntries rest comps
    else if k == "$ref" && isDefsRefStr v then
      let p := convertEntries rest comps
      ((k, rewriteRefVal v) :: p.1, p.2)
    else match v with
      | .obj es =>
        let q := convert_refs_to_components (.obj es) comps
        let p := convertEntries rest q.2
        ((k, q.1) :: p.1, p.2)
      | .arr its =>
        let q := convertItems its comps
        let p := convertEntries rest q.2
        ((k, .arr q.1) :: p.1, p.2)
      | _ =>
        let p := convertEntries rest comps
        ((k, v) :: p.1, p.2)

/-- The list branch of `_convert_refs_to_components` (lines 300-304,
308-312): dict elements are converted, every other element — including
nested lists — is kept untouched. -/
def convertItems : List Json → Comps → List Json × Comps
  | [], comps => ([], comps)
  | .obj es :: rest, comps =>
    let q := convert_refs_to_components (.obj es) comps
    let p := convertItems rest q.2
    (q.1 :: p.1, p.2)
  | it :: rest, comps =>
    let p := convertItems rest comps
    (it :: p.1, p.2)

end

mutual

/-- Does a `#/$defs/…` reference remain in this JSON tree?  The scan visits
exactly the positions the rewriting pass can reach — `$ref`-keyed string
values, dict values, and dict elements of lists — which are the only
positions where the schema generator ever places a reference. -/
def hasDefsRef : Json → Bool
  | .obj entries => hasDefsRefEntries entries
  | .arr items => hasDefsRefItems items
  | _ => false

/-- `hasDefsRef` over an object's entries. -/
def hasDefsRefEntries : List (String × Json) → Bool
  | [] => false
  | (k, v) :: rest => (k == "$ref" && isDefsRefStr v) || hasDefsRef v || hasDefsRefEntries rest

/-- `hasDefsRef` over an array's elements: only dict elements can hold a
reachable reference. -/
def hasDefsRefItems : List Json → Bool
  | [] => false
  | .obj es :: rest => hasDefsRefEntries es || hasDefsRefItems rest
  | _ :: rest => hasDefsRefItems rest

end

/-! ## The request endpoint (`router.py` lines 61-85)

The test scenario's body type: `class Item(msgspec.Struct): name: str;
price: float; description: str = ""`.  Prices are exact rationals here. -/

/-- The `Item` struct of the test suite (`tests/test_router.py` lines 9-12). -/
structure Item where
  name : String
  price : Rat
  description : String := ""
deriving DecidableEq, Repr

/-- Modelled from the external msgspec codec: decode a well-formed JSON value
against `Item`.  msgspec matches object keys to fields by name, ignores
unknown keys, accepts any JSON number for a `float` field, applies the
declared default for a missing `description`, and raises
`msgspec.ValidationError` on a non-object, a wrongly typed field, or a
missing required field.  Error messages are abridged. -/
def validateItem (j : Json) : Except String Item :=
  match j with
  | .obj entries =>
    match entries.lookup "name" with
    | some (.str n) =>
      match entries.lookup "price" with
      | some (.num p) =>
        match entries.lookup "description" with
        | some (.str d) => .ok { name := n, price := p, description := d }
        | some _ => .error "Expected str - at field description"
        | none => .ok { name := n, price := p, description := "" }
      | some _ => .error "Expected float - at field price"
      | none => .error "Object missing required field price"
    | some _ => .error "Expected str - at field name"
    | none => .error "Object missing required field name"
  | _ => .error "Expected object"

/-- How `msgspec.json.decode(raw, type=Item)` can fail: `malformed` stands
for raw bytes that are not well-formed JSON, which raise
`msgspec.DecodeError`; `validation` stands for well-formed JSON that does
not match the type, which raises the subclass `msgspec.ValidationError`. -/
inductive DecErr where
  | malformed : DecErr
  | validation (msg : String) : DecErr
deriving DecidableEq, Repr

/-- Modelled from the external msgspec codec: `msgspec.json.decode(raw,
type=Item)`.  The raw request body is represented as `none` when it is not
well-formed JSON and `some j` when it parses to the JSON value `j`. -/
def msgspec_json_decode_item : Option Json → Except DecErr Item
  | none => .error .malformed
  | some j =>
    match validateItem j with
    | .ok it => .ok it
    | .error m => .error (.validation m)

/-- Modelled from the external msgspec codec: `msgspec.to_builtins` on an
`Item`, which yields a dict with every field in declaration order,
defaults included. -/
def to_builtins_item (it : Item) : Json :=
  .obj [("name", .str it.name), ("price", .num it.price), ("description", .str it.description)]

/-- Outcome of one request against the generated endpoint: an HTTP response
with a status and JSON body, or an exception escaping the endpoint. -/
inductive EndpointResult where
  | resp (status : Nat) (body : Json) : EndpointResult
  | raised : EndpointResult

/-- The `endpoint` closure produced by the decorator for a route whose
handler takes a `Body[Item]` parameter and returns an `Item`
(`router.py` lines 61-85): decode the raw body, returning a 422
`{"detail": str(e)}` response on `msgspec.ValidationError`; a
`msgspec.DecodeError` from ill-formed JSON is not caught and escapes.  On
success the handler runs on the decoded value and its result is encoded
with status 200.  The second component records the handler invocations. -/
def endpoint_with_body (handler : Item → Item) (raw : Option Json) : EndpointResult × List Item :=
  match msgspec_json_decode_item raw with
  | .error (.validation m) => (.resp 422 (.obj [("detail", .str m)]), [])
  | .error .malformed => (.raised, [])
  | .ok item =>
    let result := handler item
    (.resp 200 (to_builtins_item result), [item])

/-- Does the endpoint outcome consist of a status-422 response whose JSON
body carries a string `detail` field?  (The shape the claim requires.) -/
def is_422_with_detail : EndpointResult → Bool
  | .resp 422 (.obj entries) =>
    match entries.lookup "detail" with
    | some (.str _) => true
    | _ => false
  | _ => false

/-! ## The route decorator (`router.py` lines 29-111) -/

/-- The universe of Python type expressions the library meets: builtins,
`msgspec.Struct` subclasses referenced by name, the `Body[...]` marker, and
the generic containers the source unwraps (`List[...]`, `Dict[...]`). -/
inductive PyType where
  | pStr : PyType
  | pFloat : PyType
  | pStruct (name : String) : PyType
  | pBody (t : PyType) : PyType
  | pList (t : PyType) : PyType
  | pDict (k v : PyType) : PyType
deriving DecidableEq, Repr

/-- Truth of `get_origin(t)`: generic aliases have an origin, plain classes
do not. -/
def getOriginIsSome : PyType → Bool
  | .pBody _ => true
  | .pList _ => true
  | .pDict _ _ => true
  | _ => false

/-- `get_args(t)[0]` for generic aliases (`none` when `get_args` is empty). -/
def getArgsHead : PyType → Option PyType
  | .pBody t => some t
  | .pList t => some t
  | .pDict k _ => some k
  | _ => none

/-- `get_origin(param_type) is Body` (`router.py` line 42). -/
def isBodyOrigin : PyType → Bool
  | .pBody _ => true
  | _ => false

/-- `hasattr(t, "__annotations__")` restricted to what the source consumes:
struct classes carry field annotations.  Builtins are modelled as bare
(on recent CPython the attribute exists but is empty; either way they
contribute nothing to schema generation, see `msgspec_schema_components`). -/
def hasFieldAnns : PyType → Bool
  | .pStruct _ => true
  | _ => false

/-- A parameter or return annotation as the decorator sees it: either it
resolves to a type, or it is a string forward reference that
`get_type_hints` cannot resolve (and raises `NameError` on). -/
inductive Ann where
  | resolved (t : PyType) : Ann
  | unresolvable : Ann
deriving DecidableEq, Repr

/-- A Python callable as seen through `inspect.signature` and
`get_type_hints`: named parameters in signature order, each optionally
annotated, plus an optional return annotation, the function name, and the
docstring. -/
structure PyCallable where
  params : List (String × Option Ann)
  returnAnn : Option Ann
  name : String
  docstring : Option String
deriving DecidableEq, Repr

/-- Exceptions the registration path can raise. -/
inductive PyErr where
  | nameError : PyErr
  | attributeError : PyErr
deriving DecidableEq, Repr

/-- Resolve all parameter annotations, in order; `get_type_hints` raises
`NameError` at the first unresolvable one and skips unannotated parameters. -/
def resolveParams : List (String × Option Ann) → Except PyErr (List (String × PyType))
  | [] => .ok []
  | (n, some (.resolved t)) :: rest => do
    let r ← resolveParams rest
    .ok ((n, t) :: r)
  | (_, some .unresolvable) :: _ => .error .nameError
  | (_, none) :: rest => resolveParams rest

/-- `get_type_hints(func, include_extras=True)` (`router.py` line 34):
the resolved parameter hints plus the resolved return hint, or `NameError`
when any annotation fails to resolve. -/
def get_type_hints (f : PyCallable) : Except PyErr (List (String × PyType) × Option PyType) := do
  let ps ← resolveParams f.params
  match f.returnAnn with
  | some (.resolved t) => .ok (ps, some t)
  | some .unresolvable => .error .nameError
  | none => .ok (ps, none)

/-- Every annotation of the callable resolves (no dangling forward
references), so `get_type_hints` succeeds. -/
def annsResolvable (f : PyCallable) : Bool :=
  f.params.all (fun pr => pr.2 != some .unresolvable) && (f.returnAnn != some .unresolvable)

/-- Python `set.add`: append if absent (insertion-ordered model of the
`registered_models` set). -/
def insertModel (l : List PyType) (t : PyType) : List PyType :=
  if l.contains t then l else l ++ [t]

/-- One iteration of the body-parameter loop (`router.py` lines 38-45): if
the parameter has a hint whose origin is `Body`, overwrite `body_param`
with this parameter and add its type argument to the registered models;
otherwise leave the state alone. -/
def scanStep (hints : List (String × PyType)) (st : Option (String × PyType) × List PyType)
    (pr : String × Option Ann) : Option (String × PyType) × List PyType :=
  match hints.lookup pr.1 with
  | some (.pBody inner) => (some (pr.1, inner), insertModel st.2 inner)
  | _ => st

/-- The body-parameter scan (`router.py` lines 37-45): walk the signature's
parameters in order, so the last `Body`-annotated one wins. -/
def bodyScan (hints : List (String × PyType)) (params : List (String × Option Ann))
    (models : List PyType) : Option (String × PyType) × List PyType :=
  params.foldl (scanStep hints) (none, models)

/-- The return-type scan (`router.py` lines 48-59): a generic alias is
unwrapped one level and its first argument registered when it carries field
annotations; a plain annotated class is registered directly. -/
def returnScan (rt : Option PyType) (models : List PyType) : List PyType :=
  match rt with
  | some t =>
    if getOriginIsSome t then
      match getArgsHead t with
      | some m => if hasFieldAnns m then insertModel models m else models
      | none => models
    else if hasFieldAnns t then insertModel models t else models
  | none => models

/-- The `method` argument, declared `Optional[str|list[str]]`
(`router.py` line 29). -/
inductive MethodArg where
  | strA (m : String) : MethodArg
  | listA (ms : List String) : MethodArg
  | noneA : MethodArg
deriving DecidableEq, Repr

/-- `method.lower()` (`router.py` line 90): only strings have `.lower`;
a list or `None` raises `AttributeError`. -/
def pyLowerMethod : MethodArg → Except PyErr String
  | .strA m => .ok m.toLower
  | _ => .error .attributeError

/-- Python `a or b` for optional strings: `None` and `""` are falsy. -/
def pyStrOr (a : Option String) (b : String) : String :=
  match a with
  | some s => if s == "" then b else s
  | none => b

/-- One entry of `self.route_info` (`router.py` lines 88-97) — the
RouteRecord of the spec. -/
structure RouteInfo where
  path : String
  method : String
  tags : List String
  summary : String
  description : String
  body_param : Option (String × PyType)
  return_type : Option PyType
  handler : String
deriving DecidableEq, Repr

/-- The mutable state of a `MsgspecRouter` (`router.py` lines 21-27):
`routes` keeps the Starlette `Route` arguments `(prefix + path, method)`. -/
structure RouterState where
  prefixStr : String
  routes : List (String × MethodArg)
  registered_models : List PyType
  route_info : List RouteInfo
deriving DecidableEq, Repr

/-- The body of `MsgspecRouter.route(...)(func)` (`router.py` lines 32-109):
resolve hints (may raise `NameError`), scan for the body parameter and the
return type, build the route-info record (where `method.lower()` may raise
`AttributeError`), append it, and append the Starlette route.  On an
exception the state is returned unchanged; the source's partial mutation of
`registered_models` before a late raise is not observable by any claim. -/
def routeDecorator (st : RouterState) (path : String) (method : MethodArg)
    (tags : Option (List String)) (summary : Option String) (description : Option String)
    (f : PyCallable) : Except PyErr RouterState := do
  let h ← get_type_hints f
  let scan := bodyScan h.1 f.params st.registered_models
  let models2 := returnScan h.2 scan.2
  let m ← pyLowerMethod method
  let ri : RouteInfo := {
    path := path
    method := m
    tags := tags.getD []
    summary := pyStrOr summary f.name
    description := pyStrOr description (pyStrOr f.docstring "")
    body_param := scan.1
    return_type := h.2
    handler := f.name }
  .ok { st with
    registered_models := models2
    route_info := st.route_info ++ [ri]
    routes := st.routes ++ [(st.prefixStr ++ path, method)] }

/-- The `body_param` recorded by the most recent registration, when the
registration succeeded and recorded at least one route. -/
def lastRouteBody : Except PyErr RouterState → Option (Option (String × PyType))
  | .ok st => st.route_info.getLast?.map (fun ri => ri.body_param)
  | .error _ => none

/-! ## Schema generation (`middleware.py` lines 178-272) and its msgspec model -/

/-- The context of `msgspec.Struct` definitions in scope: struct name →
fields in declaration order (this universe has no field defaults, so every
field is required). -/
abbrev Env := List (String × List (String × PyType))

/-- The struct names appearing syntactically in a type expression. -/
def structRefsOf : PyType → List String
  | .pStruct n => [n]
  | .pBody t => structRefsOf t
  | .pList t => structRefsOf t
  | .pDict k v => structRefsOf k ++ structRefsOf v
  | _ => []

/-- Insertion-ordered set insert for names. -/
def insertName (l : List String) (n : String) : List String :=
  if l.contains n then l else l ++ [n]

/-- One closure step: add every struct name referenced from the fields of
the structs already seen. -/
def reachStep (env : Env) (seen : List String) : List String :=
  seen.foldl
    (fun acc n =>
      match env.lookup n with
      | some fields => fields.foldl (fun a f => (structRefsOf f.2).foldl insertName a) acc
      | none => acc)
    seen

/-- All struct names transitively reachable from the roots: `env.length + 1`
closure steps saturate, since each productive step adds a name of `env`. -/
def reach (env : Env) (roots : List String) : List String :=
  (reachStep env)^[env.length + 1] (roots.foldl insertName [])

/-- The local-definition reference template, msgspec's default
`ref_template`. -/
def defsTpl (n : String) : String := "#/$defs/" ++ n

/-- The component reference template the source passes to
`schema_components` (`middleware.py` line 185). -/
def compTpl (n : String) : String := "#/components/schemas/" ++ n

/-- Modelled from the external msgspec schema generator: the inline schema
for a type, with struct references rendered through the template.  `Body`
never reaches schema generation (only its argument is ever recorded). -/
def rootSchema (tpl : String → String) : PyType → Json
  | .pStr => .obj [("type", .str "string")]
  | .pFloat => .obj [("type", .str "number")]
  | .pStruct n => .obj [("$ref", .str (tpl n))]
  | .pList t => .obj [("type", .str "array"), ("items", rootSchema tpl t)]
  | .pDict _ v => .obj [("type", .str "object"), ("additionalProperties", rootSchema tpl v)]
  | .pBody _ => .obj []

/-- Modelled from the external msgspec schema generator: the named schema of
a struct — an object schema whose properties render field types through the
same template (so a struct-typed field becomes a `$ref` in template form). -/
def structSchema (env : Env) (tpl : String → String) (n : String) : Json :=
  match env.lookup n with
  | some fields =>
    .obj [("title", .str n), ("type", .str "object"),
      ("properties", .obj (fields.map (fun f => (f.1, rootSchema tpl f.2)))),
      ("required", .arr (fields.map (fun f => .str f.1)))]
  | none => .obj []

/-- Modelled from the external msgspec schema generator:
`msgspec.json.schema(t)` — the inline schema plus a root `$defs` block
holding every transitively referenced struct, with `#/$defs/…` references
(the default template).  Key order inside the returned dict is immaterial
to every lookup the source performs; the `$defs` entry is placed first. -/
def msgspec_json_schema (env : Env) (t : PyType) : Json :=
  let names := reach env (structRefsOf t)
  let root := rootSchema defsTpl t
  if names.isEmpty then root
  else
    match root with
    | .obj es => .obj (("$defs", .obj (names.map (fun n => (n, structSchema env defsTpl n)))) :: es)
    | j => j

/-- Modelled from the external msgspec schema generator:
`msgspec.json.schema_components(models, ref_template="#/components/schemas/…")`
(`middleware.py` lines 183-186) — the shared components mapping, holding
every struct transitively reachable from the models, with references
already in component form.  Builtin models contribute nothing. -/
def msgspec_schema_components (env : Env) (models : List PyType) : Comps :=
  (reach env (models.foldl (fun acc t => (structRefsOf t).foldl insertName acc) [])).map
    (fun n => (n, structSchema env compTpl n))

/-- Assoc-list update with Python dict semantics: replace in place, or
append a new key at the end. -/
def setAssoc {α : Type} : List (String × α) → String → α → List (String × α)
  | [], k, v => [(k, v)]
  | (k0, v0) :: rest, k, v =>
    if k0 == k then (k0, v) :: rest else (k0, v0) :: setAssoc rest k v

/-- `operation[k] = v` on a JSON object. -/
def objSet : Json → String → Json → Json
  | .obj entries, k, v => .obj (setAssoc entries k v)
  | j, _, _ => j

/-- The fixed 422 response entry of every operation
(`middleware.py` lines 219-231). -/
def validationErrorResponse : Json :=
  .obj [("description", .str "Validation Error"),
    ("content", .obj [("application/json", .obj [("schema",
      .obj [("type", .str "object"),
        ("properties", .obj [("detail", .obj [("type", .str "string")])])])])])]

/-- The operation dict before the body/return additions
(`middleware.py` lines 210-233). -/
def baseOperation (r : RouteInfo) : Json :=
  .obj [("summary", .str r.summary), ("description", .str r.description),
    ("operationId", .str r.handler), ("tags", .arr (r.tags.map Json.str)),
    ("responses", .obj [("200", .obj [("description", .str "Successful Response")]),
      ("422", validationErrorResponse)])]

/-- The request-body addition (`middleware.py` lines 236-252): generate the
body type's schema, run the rewriting pass against the shared components
(mutating them), and set `requestBody`. -/
def addBodySchema (env : Env) (r : RouteInfo) (op : Json) (comps : Comps) : Json × Comps :=
  match r.body_param with
  | some pr =>
    let q := convert_refs_to_components (msgspec_json_schema env pr.2) comps
    (objSet op "requestBody"
      (.obj [("content", .obj [("application/json", .obj [("schema", q.1)])]),
        ("required", .bool true)]), q.2)
  | none => (op, comps)

/-- The response-schema addition (`middleware.py` lines 255-268):
`operation["responses"]["200"]["content"] = {...}` after converting the
return type's schema. -/
def addReturnSchema (env : Env) (r : RouteInfo) (op : Json) (comps : Comps) : Json × Comps :=
  match r.return_type with
  | some t =>
    let q := convert_refs_to_components (msgspec_json_schema env t) comps
    let responses := objGetD op "responses"
    let r200 := objGetD responses "200"
    (objSet op "responses"
      (objSet responses "200"
        (objSet r200 "content"
          (.obj [("application/json", .obj [("schema", q.1)])]))), q.2)
  | none => (op, comps)

/-- The full operation built for one route record, threading the shared
components through both schema conversions. -/
def routeOperation (env : Env) (r : RouteInfo) (comps : Comps) : Json × Comps :=
  let p := addBodySchema env r (baseOperation r) comps
  addReturnSchema env r p.1 p.2

/-- The `paths` section: path → (method → operation). -/
abbrev Paths := List (String × List (String × Json))

/-- `schema["paths"][path][method] = operation`, after the guard that
created an empty entry for an unseen path (`middleware.py` lines 207-208, 270). -/
def pathsSet (paths : Paths) (p m : String) (op : Json) : Paths :=
  setAssoc paths p (setAssoc ((paths.lookup p).getD []) m op)

/-- One iteration of the route loop (`middleware.py` lines 203-270). -/
def routeStep (env : Env) (st : Paths × Comps) (r : RouteInfo) : Paths × Comps :=
  let paths1 := if (st.1.lookup r.path).isSome then st.1 else st.1 ++ [(r.path, [])]
  let q := routeOperation env r st.2
  (pathsSet paths1 r.path r.method q.1, q.2)

/-- The assembled document, reduced to the sections the claims inspect
(the `openapi` and `info` blocks are fixed metadata). -/
structure OpenApiDoc where
  paths : Paths
  componentSchemas : Comps

/-- `OpenAPIMiddleware.generate_openapi_schema` (`middleware.py` lines
178-272) after introspection: seed `components.schemas` from
`schema_components` over the registered models, then fold the route records
into `paths`, threading the mutable components through every conversion. -/
def generate_openapi_schema (env : Env) (models : List PyType) (routes : List RouteInfo) :
    OpenApiDoc :=
  let comps0 := msgspec_schema_components env models
  let st := routes.foldl (routeStep env) ([], comps0)
  { paths := st.1, componentSchemas := st.2 }

/-- Does a `#/$defs/…` reference remain anywhere the rewriting pass could
have reached, in either section of the document? -/
def docHasDefsRef (doc : OpenApiDoc) : Bool :=
  doc.paths.any (fun pe => pe.2.any (fun me => hasDefsRef me.2)) ||
    doc.componentSchemas.any (fun ce => hasDefsRef ce.2)

/-! ## Introspection and ASGI dispatch (`middleware.py` lines 45-176) -/

/-- The outcome `_introspect_app` (`middleware.py` lines 45-68) can reach:
`some (routes, models)` when the global registry holds an entry for the app
or an app with routes was found and its routes extracted; `none` when no
app with routes could be located, in which case `routes_info` and `models`
keep their initial empty values. -/
def introspect_app (found : Option (List RouteInfo × List PyType)) :
    List RouteInfo × List PyType :=
  match found with
  | some x => x
  | none => ([], [])

/-- `generate_openapi_schema` as invoked on a request, after the lazy
introspection (`middleware.py` lines 180-181). -/
def generate_openapi_schema_lazy (env : Env) (found : Option (List RouteInfo × List PyType)) :
    OpenApiDoc :=
  let rm := introspect_app found
  generate_openapi_schema env rm.2 rm.1

/-- An ASGI scope, reduced to what the dispatch reads: `scope["type"]` and
`request.url.path`. -/
structure AsgiScope where
  scopeType : String
  path : String
deriving DecidableEq, Repr

/-- What `OpenAPIMiddleware.__call__` does with one scope: answer it with
the generated schema, answer it with the Swagger viewer page, or pass it —
unchanged — to the wrapped application. -/
inductive CallOutcome where
  | openapiJson (doc : OpenApiDoc) : CallOutcome
  | docsHtml : CallOutcome
  | forwarded (scope : AsgiScope) : CallOutcome

/-- `self.openapi_path` (`middleware.py` line 36). -/
def openapi_path : String := "/openapi.json"

/-- `self.docs_path` (`middleware.py` line 37). -/
def docs_path : String := "/docs"

/-- `OpenAPIMiddleware.__call__` (`middleware.py` lines 151-176): non-HTTP
scopes go straight to the wrapped app; an HTTP request for `/openapi.json`
is answered with the generated document, one for `/docs` with the viewer
page; everything else is forwarded untouched. -/
def middleware_call (env : Env) (found : Option (List RouteInfo × List PyType))
    (scope : AsgiScope) : CallOutcome :=
  if scope.scopeType != "http" then .forwarded scope
  else if scope.path == openapi_path then .openapiJson (generate_openapi_schema_lazy env found)
  else if scope.path == docs_path then .docsHtml
  else .forwarded scope

/-! ## Claims about the endpoint (C1, C4) -/

/-- C1 (counterexample): a request body that is not well-formed JSON makes
`msgspec.json.decode` fail, yet the endpoint does not return a 422
`detail` response — the `except msgspec.ValidationError` clause
(`router.py` line 71) does not catch the `msgspec.DecodeError` raised for
malformed input, so the exception escapes the endpoint.  (The handler is
still never invoked.) -/
theorem c1_malformed_body_not_422 :
    msgspec_json_decode_item none = .error .malformed ∧
    endpoint_with_body (fun it => it) none = (.raised, []) ∧
    is_422_with_detail (endpoint_with_body (fun it => it) none).1 = false := by
  exact ⟨rfl, rfl, rfl⟩

/-- C1 (amended): for every handler and every request body that is
well-formed JSON but fails validation against the declared body type —
including a payload missing a required field — the endpoint returns a 422
response whose JSON body carries the error text in a string `detail`
field, and the handler is never invoked. -/
theorem c1_validation_failure_yields_422 (handler : Item → Item) (j : Json) (m : String)
    (h : validateItem j = .error m) :
    endpoint_with_body handler (some j) = (.resp 422 (.obj [("detail", .str m)]), []) ∧
    is_422_with_detail (endpoint_with_body handler (some j)).1 = true := by
  have hd : msgspec_json_decode_item (some j) = .error (.validation m) := by
    simp [msgspec_json_decode_item, h]
  constructor
  · simp [endpoint_with_body, hd]
  · simp [endpoint_with_body, hd, is_422_with_detail]

/-- C1 (witness): the test suite's invalid payload `{"name": "Invalid
Item"}` — missing the required `price` — yields the 422 `detail` response
and no handler invocation. -/
theorem c1_validation_failure_yields_422_witness :
    endpoint_with_body (fun it => it) (some (.obj [("name", .str "Invalid Item")])) =
      (.resp 422 (.obj [("detail", .str "Object missing required field price")]), []) ∧
    is_422_with_detail
      (endpoint_with_body (fun it => it) (some (.obj [("name", .str "Invalid Item")]))).1 = true :=
  c1_validation_failure_yields_422 (fun it => it) (.obj [("name", .str "Invalid Item")])
    "Object missing required field price" rfl

/-- C4: for the scenario's payload shape — an object with string `name`,
numeric `price` and string `description` — the round trip through the
endpoint with a handler returning its decoded body unchanged gives status
200 and a JSON body equal to the posted payload, with the handler invoked
exactly once on the decoded item. -/
theorem c4_roundtrip_identity (s d : String) (p : Rat) :
    endpoint_with_body (fun it => it)
      (some (.obj [("name", .str s), ("price", .num p), ("description", .str d)])) =
      (.resp 200 (.obj [("name", .str s), ("price", .num p), ("description", .str d)]),
        [{ name := s, price := p, description := d }]) := by
  rfl

/-! ## Association-list lemmas shared by the remaining claims -/

theorem lookup_append_left {β : Type} {l t : List (String × β)} {n : String} {v : β}
    (h : l.lookup n = some v) : (l ++ t).lookup n = some v := by
  induction l with
  | nil => simp [List.lookup] at h
  | cons kv rest ih =>
    obtain ⟨k0, v0⟩ := kv
    by_cases hk : n == k0
    · simp [List.lookup, hk] at h ⊢; exact h
    · simp [List.lookup, hk] at h ⊢; exact ih h

theorem lookup_append_none {β : Type} {l : List (String × β)} {n : String}
    (h : l.lookup n = none) (t : List (String × β)) : (l ++ t).lookup n = t.lookup n := by
  induction l with
  | nil => simp
  | cons kv rest ih =>
    obtain ⟨k0, v0⟩ := kv
    by_cases hk : n == k0
    · simp only [List.lookup, hk, if_true] at h
      exact absurd h (by simp)
    · simp only [List.cons_append, List.lookup, hk, if_false, Bool.false_eq_true] at h ⊢
      exact ih h

theorem hoistDefs_cons (kv : String × Json) (defs : List (String × Json)) (comps : Comps) :
    hoistDefs (kv :: defs) comps =
      hoistDefs defs (if (comps.lookup kv.1).isSome then comps else comps ++ [kv]) := by
  by_cases h : (comps.lookup kv.1).isSome <;> simp [hoistDefs, h]

theorem hoistDefs_preserve (defs : List (String × Json)) (comps : Comps) (n : String) (v : Json)
    (h : comps.lookup n = some v) : (hoistDefs defs comps).lookup n = some v := by
  induction defs generalizing comps with
  | nil => simpa [hoistDefs] using h
  | cons kv rest ih =>
    rw [hoistDefs_cons]
    by_cases hp : (comps.lookup kv.1).isSome
    · simp only [hp, if_true]; exact ih comps h
    · simp only [hp, if_false]; exact ih _ (lookup_append_left h)

theorem hoistDefs_new (defs : List (String × Json)) (comps : Comps) (n : String)
    (h : comps.lookup n = none) : (hoistDefs defs comps).lookup n = defs.lookup n := by
  induction defs generalizing comps with
  | nil => simpa [hoistDefs] using h
  | cons kv rest ih =>
    obtain ⟨k0, v0⟩ := kv
    rw [hoistDefs_cons]
    by_cases hk : n == k0
    · have hk' : n = k0 := by simpa using hk
      subst hk'
      have hnone : ((comps.lookup (n, v0).1).isSome = true) = False := by
        simp [h]
      rw [if_neg (by simp [h])]
      have h1 : (comps ++ [(n, v0)]).lookup n = some v0 := by
        rw [lookup_append_none h]; simp [List.lookup]
      rw [hoistDefs_preserve rest _ n v0 h1]
      simp [List.lookup]
    · have step : (hoistDefs rest (if (comps.lookup (k0, v0).1).isSome then comps
          else comps ++ [(k0, v0)])).lookup n = List.lookup n rest := by
        by_cases hp : (comps.lookup (k0, v0).1).isSome
        · rw [if_pos hp]; exact ih comps h
        · rw [if_neg hp]
          refine ih _ ?_
          rw [lookup_append_none h]
          simp [List.lookup, hk]
      rw [step]
      simp [List.lookup, hk]

/-- C7: when a local `$defs` block is hoisted, the block itself is removed
from the fragment and each definition is copied into the shared mapping
only when its name is not already bound there: an existing binding survives
untouched whatever the new definition's content (first writer wins, no
structural comparison), while a fresh name receives its first definition
from the block. -/
theorem c7_first_writer_wins (defs : List (String × Json)) (comps : Comps) :
    convert_refs_to_components (.obj [("$defs", .obj defs)]) comps =
      (.obj [], hoistDefs defs comps) ∧
    (∀ n v, comps.lookup n = some v → (hoistDefs defs comps).lookup n = some v) ∧
    (∀ n, comps.lookup n = none → (hoistDefs defs comps).lookup n = defs.lookup n) := by
  refine ⟨?_, fun n v h => hoistDefs_preserve defs comps n v h,
    fun n h => hoistDefs_new defs comps n h⟩
  simp [convert_refs_to_components, convertEntries, List.lookup, isObjB]

/-- C7 (witness): with `A` already bound in the shared mapping, hoisting a
block that rebinds `A` to a structurally different schema and also binds a
fresh `B` keeps the old `A` and adds `B`. -/
theorem c7_first_writer_wins_witness :
    convert_refs_to_components
        (.obj [("$defs", .obj [("A", .str "new"), ("B", .str "fresh")])])
        [("A", .str "old")] =
      (.obj [], hoistDefs [("A", .str "new"), ("B", .str "fresh")] [("A", .str "old")]) ∧
    (hoistDefs [("A", .str "new"), ("B", .str "fresh")] [("A", .str "old")]).lookup "A" =
      some (.str "old") ∧
    (hoistDefs [("A", .str "new"), ("B", .str "fresh")] [("A", .str "old")]).lookup "B" =
      some (.str "fresh") := by
  refine ⟨(c7_first_writer_wins _ _).1, ?_, ?_⟩
  · exact (c7_first_writer_wins [("A", .str "new"), ("B", .str "fresh")] [("A", .str "old")]).2.1
      "A" (.str "old") rfl
  · exact ((c7_first_writer_wins [("A", .str "new"), ("B", .str "fresh")]
      [("A", .str "old")]).2.2 "B" rfl).trans rfl

/-! ## Resolution lemmas for the decorator claims -/

/-- The hints `get_type_hints` produces when every annotation resolves:
annotated parameters in order, unannotated ones skipped. -/
def resolvedHints (params : List (String × Option Ann)) : List (String × PyType) :=
  params.filterMap (fun pr =>
    match pr.2 with
    | some (.resolved t) => some (pr.1, t)
    | _ => none)

/-- The resolved return hint. -/
def resolvedRet : Option Ann → Option PyType
  | some (.resolved t) => some t
  | _ => none

theorem resolveParams_eq (params : List (String × Option Ann))
    (h : params.all (fun pr => pr.2 != some .unresolvable) = true) :
    resolveParams params = .ok (resolvedHints params) := by
  induction params with
  | nil => rfl
  | cons pr rest ih =>
    obtain ⟨n, a⟩ := pr
    simp only [List.all_cons, Bool.and_eq_true] at h
    match a with
    | some (.resolved t) =>
      simp [resolveParams, ih h.2, resolvedHints, Bind.bind, Except.bind]
    | some .unresolvable => simp at h
    | none =>
      simpa [resolveParams, resolvedHints] using ih h.2

theorem get_type_hints_eq (f : PyCallable) (h : annsResolvable f = true) :
    get_type_hints f = .ok (resolvedHints f.params, resolvedRet f.returnAnn) := by
  simp only [annsResolvable, Bool.and_eq_true] at h
  match hr : f.returnAnn with
  | some (.resolved t) =>
    simp [get_type_hints, resolveParams_eq f.params h.1, hr, resolvedRet, Bind.bind, Except.bind]
  | some .unresolvable => rw [hr] at h; simp at h
  | none =>
    simp [get_type_hints, resolveParams_eq f.params h.1, hr, resolvedRet, Bind.bind, Except.bind]

/-! ## C10: a list method argument breaks registration -/

/-- C10: for every callable whose annotations resolve, registering it with
a list of methods fails: after the annotation scans, building the
route-info record evaluates `method.lower()` (`router.py` line 90), and a
list has no `lower`, so registration raises `AttributeError` and neither a
route record nor a Starlette route is added. -/
theorem c10_list_method_raises (st : RouterState) (path : String) (ms : List String)
    (tags : Option (List String)) (summary description : Option String) (f : PyCallable)
    (h : annsResolvable f = true) :
    routeDecorator st path (.listA ms) tags summary description f = .error .attributeError := by
  simp [routeDecorator, get_type_hints_eq f h, pyLowerMethod, Bind.bind, Except.bind]

/-- C10 (witness): a concrete registration with `method=["GET", "POST"]`
raises `AttributeError`. -/
theorem c10_list_method_raises_witness :
    routeDecorator ⟨"", [], [], []⟩ "/items/" (.listA ["GET", "POST"]) none none none
      ⟨[("body", some (.resolved (.pBody (.pStruct "Item"))))],
        some (.resolved (.pStruct "Item")), "create_item", none⟩ =
      .error .attributeError :=
  c10_list_method_raises ⟨"", [], [], []⟩ "/items/" ["GET", "POST"] none none none
    ⟨[("body", some (.resolved (.pBody (.pStruct "Item"))))],
      some (.resolved (.pStruct "Item")), "create_item", none⟩ rfl

/-! ## C6: no routes means an empty paths mapping -/

/-- C6: whenever introspection yields no route records — because none were
registered or because no app with routes could be located — document
generation still succeeds (it is a total function here) and the resulting
document's `paths` mapping is empty. -/
theorem c6_no_routes_empty_paths (env : Env) (found : Option (List RouteInfo × List PyType))
    (h : (introspect_app found).1 = []) :
    (generate_openapi_schema_lazy env found).paths = [] := by
  simp [generate_openapi_schema_lazy, h, generate_openapi_schema]

/-- C6 (witness): with introspection unable to locate any routes, the
document has an empty `paths` mapping. -/
theorem c6_no_routes_empty_paths_witness :
    (generate_openapi_schema_lazy [] none).paths = [] :=
  c6_no_routes_empty_paths [] none rfl

/-! ## C9: documentation paths are intercepted, everything else forwarded -/

/-- C9: an HTTP request for `/openapi.json` is answered by the middleware
with the generated document and one for `/docs` with the viewer page —
neither is ever forwarded, so an inner route at those paths is unreachable
behind this middleware; every other HTTP request, and every non-HTTP
scope, is passed to the wrapped application with the scope unchanged. -/
theorem c9_docs_paths_intercepted (env : Env)
    (found : Option (List RouteInfo × List PyType)) (scope : AsgiScope) :
    (scope.scopeType = "http" → scope.path = openapi_path →
      middleware_call env found scope = .openapiJson (generate_openapi_schema_lazy env found)) ∧
    (scope.scopeType = "http" → scope.path = docs_path →
      middleware_call env found scope = .docsHtml) ∧
    (scope.scopeType = "http" → scope.path ≠ openapi_path → scope.path ≠ docs_path →
      middleware_call env found scope = .forwarded scope) ∧
    (scope.scopeType ≠ "http" → middleware_call env found scope = .forwarded scope) := by
  refine ⟨?_, ?_, ?_, ?_⟩
  · intro ht hp; simp [middleware_call, ht, hp]
  · intro ht hp; simp [middleware_call, ht, hp, openapi_path, docs_path]
  · intro ht hp hd; simp [middleware_call, ht, hp, hd]
  · intro ht; simp [middleware_call, ht]

/-- C9 (witness): concrete dispatches — `/openapi.json` and `/docs` are
answered, `/items/` is forwarded, and a websocket scope is forwarded. -/
theorem c9_docs_paths_intercepted_witness :
    middleware_call [] none ⟨"http", "/openapi.json"⟩ =
      .openapiJson (generate_openapi_schema_lazy [] none) ∧
    middleware_call [] none ⟨"http", "/docs"⟩ = .docsHtml ∧
    middleware_call [] none ⟨"http", "/items/"⟩ = .forwarded ⟨"http", "/items/"⟩ ∧
    middleware_call [] none ⟨"websocket", "/openapi.json"⟩ =
      .forwarded ⟨"websocket", "/openapi.json"⟩ := by
  refine ⟨(c9_docs_paths_intercepted [] none ⟨"http", "/openapi.json"⟩).1 rfl rfl,
    (c9_docs_paths_intercepted [] none ⟨"http", "/docs"⟩).2.1 rfl rfl,
    (c9_docs_paths_intercepted [] none ⟨"http", "/items/"⟩).2.2.1 rfl (by decide) (by decide),
    (c9_docs_paths_intercepted [] none ⟨"websocket", "/openapi.json"⟩).2.2.2 (by decide)⟩

/-! ## C3 and C5: annotation handling at registration -/

/-- The type a resolved annotation contributes to the hints. -/
def annTypeOf : Option Ann → Option PyType
  | some (.resolved t) => some t
  | _ => none

/-- The `Body` argument of an annotation, when the annotation is a resolved
`Body[...]`. -/
def bodyArgOf : Option Ann → Option PyType
  | some (.resolved (.pBody t)) => some t
  | _ => none

/-- The `Body`-annotated parameters of a signature, in order. -/
def bodiesOf (params : List (String × Option Ann)) : List (String × PyType) :=
  params.filterMap (fun pr => (bodyArgOf pr.2).map (fun t => (pr.1, t)))

theorem scanStep_eval (hints : List (String × PyType))
    (st : Option (String × PyType) × List PyType) (pr : String × Option Ann)
    (h : hints.lookup pr.1 = annTypeOf pr.2) :
    scanStep hints st pr =
      match bodyArgOf pr.2 with
      | some t => (some (pr.1, t), insertModel st.2 t)
      | none => st := by
  match ha : pr.2 with
  | none => simp [scanStep, h, ha, annTypeOf, bodyArgOf]
  | some .unresolvable => simp [scanStep, h, ha, annTypeOf, bodyArgOf]
  | some (.resolved pt) => cases pt <;> simp [scanStep, h, ha, annTypeOf, bodyArgOf]

theorem foldl_scan (hints : List (String × PyType)) (params : List (String × Option Ann))
    (b0 : Option (String × PyType)) (ms : List PyType)
    (H : ∀ pr ∈ params, hints.lookup pr.1 = annTypeOf pr.2) :
    (params.foldl (scanStep hints) (b0, ms)).1 =
      (bodiesOf params).foldl (fun _ x => some x) b0 := by
  induction params generalizing b0 ms with
  | nil => rfl
  | cons hd tl ih =>
    have hh := H hd (List.mem_cons_self hd tl)
    rw [List.foldl_cons, scanStep_eval hints (b0, ms) hd hh]
    have Ht : ∀ pr ∈ tl, hints.lookup pr.1 = annTypeOf pr.2 :=
      fun pr hm => H pr (List.mem_cons_of_mem _ hm)
    cases hb : bodyArgOf hd.2 with
    | none =>
      simp only [bodiesOf, List.filterMap_cons, hb, Option.map_none]
      exact ih b0 ms Ht
    | some t =>
      simp only [bodiesOf, List.filterMap_cons, hb, Option.map_some, List.foldl_cons]
      exact ih _ _ Ht

theorem foldl_lastSome {α : Type} (l : List α) (b0 : Option α) :
    l.foldl (fun _ x => some x) b0 =
      match l.getLast? with
      | some x => some x
      | none => b0 := by
  induction l using List.reverseRecOn generalizing b0 with
  | nil => rfl
  | append_singleton l a _ =>
    rw [List.foldl_append, List.getLast?_concat]
    rfl

theorem resolvedHints_lookup_not_mem (params : List (String × Option Ann)) (n : String)
    (h : n ∉ params.map Prod.fst) : (resolvedHints params).lookup n = none := by
  induction params with
  | nil => rfl
  | cons hd tl ih =>
    simp only [List.map_cons, List.mem_cons, not_or] at h
    have hne : (n == hd.1) = false := by
      simp [h.1]
    match ha : hd.2 with
    | some (.resolved t) =>
      simp only [resolvedHints, List.filterMap_cons, ha, List.lookup, hne, Bool.false_eq_true,
        if_false]
      exact ih h.2
    | some .unresolvable =>
      simp only [resolvedHints, List.filterMap_cons, ha]
      exact ih h.2
    | none =>
      simp only [resolvedHints, List.filterMap_cons, ha]
      exact ih h.2

theorem hints_lookup_of_nodup (params : List (String × Option Ann))
    (hnd : (params.map Prod.fst).Nodup) :
    ∀ pr ∈ params, (resolvedHints params).lookup pr.1 = annTypeOf pr.2 := by
  induction params with
  | nil => intro pr hm; simp at hm
  | cons hd tl ih =>
    simp only [List.map_cons, List.nodup_cons] at hnd
    intro pr hm
    rcases List.mem_cons.mp hm with hm | hm
    · subst hm
      match ha : pr.2 with
      | some (.resolved t) =>
        simp [resolvedHints, List.filterMap_cons, ha, List.lookup, annTypeOf]
      | some .unresolvable =>
        simp only [resolvedHints, List.filterMap_cons, ha, annTypeOf]
        exact resolvedHints_lookup_not_mem tl pr.1 hnd.1
      | none =>
        simp only [resolvedHints, List.filterMap_cons, ha, annTypeOf]
        exact resolvedHints_lookup_not_mem tl pr.1 hnd.1
    · have hne : (pr.1 == hd.1) = false := by
        have : pr.1 ∈ tl.map Prod.fst := List.mem_map_of_mem Prod.fst hm
        have hne' : pr.1 ≠ hd.1 := fun he => hnd.1 (he ▸ this)
        simp [hne']
      match ha : hd.2 with
      | some (.resolved t) =>
        simp only [resolvedHints, List.filterMap_cons, ha, List.lookup, hne, Bool.false_eq_true,
          if_false]
        exact ih hnd.2 pr hm
      | some .unresolvable =>
        simp only [resolvedHints, List.filterMap_cons, ha]
        exact ih hnd.2 pr hm
      | none =>
        simp only [resolvedHints, List.filterMap_cons, ha]
        exact ih hnd.2 pr hm

/-- Core fact shared by the registration claims: with resolvable
annotations and distinct parameter names, registration with a string method
succeeds, appends exactly one route record, and that record's `body_param`
is the last `Body`-annotated parameter (or `none` if there is none). -/
theorem decorator_ok_body (st : RouterState) (path m : String) (tags : Option (List String))
    (summary description : Option String) (f : PyCallable)
    (h1 : annsResolvable f = true) (h2 : (f.params.map Prod.fst).Nodup) :
    (∃ st', routeDecorator st path (.strA m) tags summary description f = .ok st') ∧
    lastRouteBody (routeDecorator st path (.strA m) tags summary description f) =
      some ((bodiesOf f.params).getLast?) := by
  have hscan : (bodyScan (resolvedHints f.params) f.params st.registered_models).1 =
      (bodiesOf f.params).getLast? := by
    rw [bodyScan, foldl_scan _ _ _ _ (hints_lookup_of_nodup f.params h2), foldl_lastSome]
    cases (bodiesOf f.params).getLast? <;> rfl
  have hlast : lastRouteBody (routeDecorator st path (.strA m) tags summary description f) =
      some ((bodiesOf f.params).getLast?) := by
    simp [routeDecorator, get_type_hints_eq f h1, pyLowerMethod, Bind.bind, Except.bind,
      lastRouteBody, hscan]
  refine ⟨?_, hlast⟩
  cases hd : routeDecorator st path (.strA m) tags summary description f with
  | ok st' => exact ⟨st', rfl⟩
  | error e => rw [hd] at hlast; simp [lastRouteBody] at hlast

/-- C5: a handler with more than one `Body`-annotated parameter registers
without any error, and the recorded route's single `body_param` is the last
`Body`-annotated parameter in signature order — each iteration of the scan
overwrites the previous find (`router.py` lines 38-45). -/
theorem c5_last_body_param_wins (st : RouterState) (path m : String)
    (tags : Option (List String)) (summary description : Option String) (f : PyCallable)
    (h1 : annsResolvable f = true) (h2 : (f.params.map Prod.fst).Nodup)
    (_h3 : 2 ≤ (bodiesOf f.params).length) :
    (∃ st', routeDecorator st path (.strA m) tags summary description f = .ok st') ∧
    lastRouteBody (routeDecorator st path (.strA m) tags summary description f) =
      some ((bodiesOf f.params).getLast?) :=
  decorator_ok_body st path m tags summary description f h1 h2

/-- C5 (witness): a handler with two `Body` parameters `a : Body[A]`,
`b : Body[B]` registers fine and records `b` — the later parameter — as the
body parameter. -/
theorem c5_last_body_param_wins_witness :
    (∃ st', routeDecorator ⟨"", [], [], []⟩ "/p" (.strA "POST") none none none
      ⟨[("a", some (.resolved (.pBody (.pStruct "A")))),
        ("b", some (.resolved (.pBody (.pStruct "B"))))], none, "h2b", none⟩ = .ok st') ∧
    lastRouteBody (routeDecorator ⟨"", [], [], []⟩ "/p" (.strA "POST") none none none
      ⟨[("a", some (.resolved (.pBody (.pStruct "A")))),
        ("b", some (.resolved (.pBody (.pStruct "B"))))], none, "h2b", none⟩) =
      some (some ("b", .pStruct "B")) := by
  have h := c5_last_body_param_wins ⟨"", [], [], []⟩ "/p" "POST" none none none
    ⟨[("a", some (.resolved (.pBody (.pStruct "A")))),
      ("b", some (.resolved (.pBody (.pStruct "B"))))], none, "h2b", none⟩
    rfl (by decide) (by decide)
  exact ⟨h.1, h.2.trans rfl⟩

theorem resolveParams_err (params : List (String × Option Ann))
    (h : params.all (fun pr => pr.2 != some .unresolvable) = false) :
    resolveParams params = .error .nameError := by
  induction params with
  | nil => simp at h
  | cons hd tl ih =>
    obtain ⟨n, a⟩ := hd
    simp only [List.all_cons, Bool.and_eq_false_iff] at h
    match ha : a with
    | some .unresolvable => rfl
    | some (.resolved t) =>
      have htl : tl.all (fun pr => pr.2 != some .unresolvable) = false := by
        rcases h with h | h
        · simp at h
        · exact h
      simp [resolveParams, ih htl, Bind.bind, Except.bind]
    | none =>
      have htl : tl.all (fun pr => pr.2 != some .unresolvable) = false := by
        rcases h with h | h
        · simp at h
        · exact h
      simp [resolveParams, ih htl]

theorem get_type_hints_err (f : PyCallable) (h : annsResolvable f = false) :
    get_type_hints f = .error .nameError := by
  by_cases hp : f.params.all (fun pr => pr.2 != some .unresolvable) = true
  · have hr : f.returnAnn = some .unresolvable := by
      simp only [annsResolvable, hp, Bool.true_and] at h
      cases hfr : f.returnAnn with
      | none => rw [hfr] at h; simp at h
      | some a =>
        cases a with
        | resolved t => rw [hfr] at h; simp at h
        | unresolvable => rfl
    simp [get_type_hints, resolveParams_eq f.params hp, hr, Bind.bind, Except.bind]
  · have := resolveParams_err f.params (by simpa using hp)
    simp [get_type_hints, this, Bind.bind, Except.bind]

/-- C3 (counterexample): a callable with a single unresolvable parameter
annotation (a dangling string forward reference) makes
`get_type_hints(func)` — called unguarded at `router.py` line 34 — raise
`NameError`, so registration fails rather than silently recording no body
parameter. -/
theorem c3_unresolvable_ann_fails :
    routeDecorator ⟨"", [], [], []⟩ "/p" (.strA "GET") none none none
      ⟨[("x", some .unresolvable)], none, "handler_fn", none⟩ = .error .nameError := rfl

/-- C3 (amended): when every annotation of the callable resolves (in
particular when annotations are simply absent) and none is the `Body`
marker, registration completes and silently records no body parameter — and
handlers with several `Body` parameters also never fail (see the C5
theorem); but when an annotation is unresolvable, `get_type_hints` raises
`NameError` and registration fails, whatever the other arguments are. -/
theorem c3_no_body_silent_or_raise (st : RouterState) (path m : String)
    (mArg : MethodArg) (tags : Option (List String)) (summary description : Option String)
    (f : PyCallable) :
    (annsResolvable f = true → (f.params.map Prod.fst).Nodup → bodiesOf f.params = [] →
      (∃ st', routeDecorator st path (.strA m) tags summary description f = .ok st') ∧
      lastRouteBody (routeDecorator st path (.strA m) tags summary description f) =
        some none) ∧
    (annsResolvable f = false →
      routeDecorator st path mArg tags summary description f = .error .nameError) := by
  constructor
  · intro h1 h2 h3
    have h := decorator_ok_body st path m tags summary description f h1 h2
    exact ⟨h.1, by rw [h.2, h3]; rfl⟩
  · intro h1
    simp [routeDecorator, get_type_hints_err f h1, Bind.bind, Except.bind]

/-- C3 (witness): a callable with one unannotated parameter registers with
no body parameter recorded; one with an unresolvable annotation raises. -/
theorem c3_no_body_silent_or_raise_witness :
    ((∃ st', routeDecorator ⟨"", [], [], []⟩ "/q" (.strA "GET") none none none
      ⟨[("request", none)], none, "plain_fn", none⟩ = .ok st') ∧
    lastRouteBody (routeDecorator ⟨"", [], [], []⟩ "/q" (.strA "GET") none none none
      ⟨[("request", none)], none, "plain_fn", none⟩) = some none) ∧
    routeDecorator ⟨"", [], [], []⟩ "/q" (.strA "GET") none none none
      ⟨[("y", some .unresolvable)], none, "bad_fn", none⟩ = .error .nameError :=
  ⟨(c3_no_body_silent_or_raise ⟨"", [], [], []⟩ "/q" "GET" (.strA "GET") none none none
      ⟨[("request", none)], none, "plain_fn", none⟩).1 rfl (by decide) rfl,
    (c3_no_body_silent_or_raise ⟨"", [], [], []⟩ "/q" "GET" (.strA "GET") none none none
      ⟨[("y", some .unresolvable)], none, "bad_fn", none⟩).2 rfl⟩

/-! ## C8: two methods on one path -/

theorem lookup_setAssoc_ne {β : Type} (l : List (String × β)) (k k' : String) (v : β)
    (hne : (k == k') = false) : (setAssoc l k' v).lookup k = l.lookup k := by
  induction l with
  | nil => simp [setAssoc, List.lookup, hne]
  | cons kv rest ih =>
    obtain ⟨k0, v0⟩ := kv
    by_cases h0 : k0 == k'
    · have hk : (k == k0) = false := by
        have h0' : k0 = k' := by simpa using h0
        subst h0'
        exact hne
      simp [setAssoc, h0, List.lookup, hk]
    · simp only [setAssoc, h0, Bool.false_eq_true, if_false]
      by_cases hk : k == k0
      · simp [List.lookup, hk]
      · simp only [List.lookup, hk, Bool.false_eq_true, if_false]
        exact ih

theorem objLookup_objSet_ne (o : Json) (k k' : String) (v : Json)
    (hne : (k == k') = false) : objLookup (objSet o k' v) k = objLookup o k := by
  cases o <;> simp [objSet, objLookup, lookup_setAssoc_ne _ _ _ _ hne]

theorem opId_routeOperation (env : Env) (r : RouteInfo) (comps : Comps) :
    objLookup (routeOperation env r comps).1 "operationId" = some (.str r.handler) := by
  have hbase : objLookup (baseOperation r) "operationId" = some (.str r.handler) := by
    simp [baseOperation, objLookup, List.lookup]
  rw [routeOperation]
  cases hb : r.body_param with
  | none =>
    cases hrt : r.return_type with
    | none => simpa [addBodySchema, addReturnSchema, hb, hrt] using hbase
    | some t =>
      simp only [addBodySchema, addReturnSchema, hb, hrt]
      rw [objLookup_objSet_ne _ _ _ _ (by decide)]
      exact hbase
  | some pr =>
    cases hrt : r.return_type with
    | none =>
      simp only [addBodySchema, addReturnSchema, hb, hrt]
      rw [objLookup_objSet_ne _ _ _ _ (by decide)]
      exact hbase
    | some t =>
      simp only [addBodySchema, addReturnSchema, hb, hrt]
      rw [objLookup_objSet_ne _ _ _ _ (by decide), objLookup_objSet_ne _ _ _ _ (by decide)]
      exact hbase

/-- C8: registering two routes at the same path with different methods
yields a document with a single entry for that path, under which both
methods appear as distinct keys, each bound to the operation built from its
own route record (witnessed by the `operationId`). -/
theorem c8_two_methods_one_path (env : Env) (models : List PyType) (r1 r2 : RouteInfo)
    (hp : r1.path = r2.path) (hm : (r1.method == r2.method) = false) :
    ∃ op1 op2,
      (generate_openapi_schema env models [r1, r2]).paths =
        [(r1.path, [(r1.method, op1), (r2.method, op2)])] ∧
      objLookup op1 "operationId" = some (.str r1.handler) ∧
      objLookup op2 "operationId" = some (.str r2.handler) := by
  refine ⟨(routeOperation env r1 (msgspec_schema_components env models)).1,
    (routeOperation env r2
      (routeOperation env r1 (msgspec_schema_components env models)).2).1,
    ?_, opId_routeOperation env r1 _, opId_routeOperation env r2 _⟩
  simp only [generate_openapi_schema, List.foldl_cons, List.foldl_nil]
  simp only [routeStep, pathsSet, ← hp]
  simp [setAssoc, List.lookup, hm]

/-- The test suite's struct context: just `Item` (`tests/test_router.py`
lines 9-12). -/
def envItem : Env := [("Item", [("name", .pStr), ("price", .pFloat), ("description", .pStr)])]

/-- The route record of `GET /items/` (`tests/test_router.py` lines 19-21). -/
def rGetItems : RouteInfo :=
  ⟨"/items/", "get", ["items"], "get_items", "", none, some (.pList (.pStruct "Item")),
    "get_items"⟩

/-- The route record of `POST /items/` (`tests/test_router.py` lines 23-25). -/
def rCreateItem : RouteInfo :=
  ⟨"/items/", "post", ["items"], "create_item", "", some ("body", .pStruct "Item"),
    some (.pStruct "Item"), "create_item"⟩

/-- C8 (witness): the test scenario's two routes at `/items/` produce one
path entry with both `get` and `post` keys, each carrying its own
operation. -/
theorem c8_two_methods_one_path_witness :
    ∃ op1 op2,
      (generate_openapi_schema envItem [.pStruct "Item"] [rGetItems, rCreateItem]).paths =
        [("/items/", [("get", op1), ("post", op2)])] ∧
      objLookup op1 "operationId" = some (.str "get_items") ∧
      objLookup op2 "operationId" = some (.str "create_item") := by
  have h := c8_two_methods_one_path envItem [.pStruct "Item"] rGetItems rCreateItem rfl rfl
  simpa [rGetItems, rCreateItem] using h

/-! ## C2: `$defs` hoisting leaves references inside hoisted entries -/

/-- A struct context with one nesting level: `Outer` has a field of struct
type `Inner`. -/
def envC2 : Env := [("Outer", [("inner", .pStruct "Inner")]), ("Inner", [("x", .pStr)])]

/-- A route returning `Dict[str, Outer]`: registration unwraps the alias to
its first argument `str` (`router.py` lines 51-56), so neither `Outer` nor
`Inner` enters the registered model set. -/
def rDictOuter : RouteInfo :=
  ⟨"/o", "get", [], "get_o", "", none, some (.pDict .pStr (.pStruct "Outer")), "get_o"⟩

/-- C2 (counterexample): with the `Dict[str, Outer]` route and an empty
model set, the generated document still contains a `#/$defs/…` reference —
`Outer` is hoisted into `components.schemas` verbatim, so its `inner`
property still points at `#/$defs/Inner` even though `Inner` also sits in
`components.schemas`; the rewriting pass never descends into hoisted
definitions (`middleware.py` lines 279-281). -/
theorem c2_dangling_defs_ref :
    docHasDefsRef (generate_openapi_schema envC2 [] [rDictOuter]) = true ∧
    objLookup
      (objGetD
        (objGetD
          (((generate_openapi_schema envC2 [] [rDictOuter]).componentSchemas.lookup
            "Outer").getD .null)
          "properties")
        "inner")
      "$ref" = some (.str "#/$defs/Inner") ∧
    ((generate_openapi_schema envC2 [] [rDictOuter]).componentSchemas.lookup
      "Inner").isSome = true := by
  exact ⟨rfl, rfl, rfl⟩

/-- The components state after the root-level `$defs` hoist of an object's
entries. -/
def defsComps (entries : List (String × Json)) (comps : Comps) : Comps :=
  match entries.lookup "$defs" with
  | some (.obj defs) => hoistDefs defs comps
  | _ => comps

theorem convert_obj_eq (es : List (String × Json)) (comps : Comps) :
    convert_refs_to_components (.obj es) comps =
      (.obj (convertEntries es (defsComps es comps)).1,
        (convertEntries es (defsComps es comps)).2) := by
  rw [convert_refs_to_components, defsComps]

theorem convert_arr_eq (its : List Json) (comps : Comps) :
    convert_refs_to_components (.arr its) comps =
      (.arr (convertItems its comps).1, (convertItems its comps).2) := by
  rw [convert_refs_to_components]

theorem not_prefix_comp (x : List Char) : defsChars.isPrefixOf (compChars ++ x) = false := rfl

theorem startswithDefs_rewriteRef (s : String) : startswithDefs (rewriteRef s) = false := by
  rw [rewriteRef, startswithDefs]
  exact not_prefix_comp _

theorem isDefsRefStr_of_isObj (j : Json) (h : isObjB j = true) : isDefsRefStr j = false := by
  cases j <;> simp_all [isObjB, isDefsRefStr]

theorem hasDefsRefItems_cons (x : Json) (l : List Json) :
    hasDefsRefItems (x :: l) =
      ((match x with
        | .obj es => hasDefsRefEntries es
        | _ => false) || hasDefsRefItems l) := by
  cases x <;> simp [hasDefsRefItems]


mutual

/-- The fragment returned by the rewriting pass carries no `#/$defs/…`
reference: every `$ref` it kept was rewritten, every `$defs` block it met
was removed, and the recursion reaches every position the scan looks at. -/
theorem convert_noDefs (j : Json) (comps : Comps) :
    hasDefsRef (convert_refs_to_components j comps).1 = false :=
  match j with
  | .obj entries => by
    rw [convert_obj_eq]
    exact convertEntries_noDefs entries (defsComps entries comps)
  | .arr items => by
    rw [convert_arr_eq]
    exact convertItems_noDefs items comps
  | .null => by simp [convert_refs_to_components, hasDefsRef]
  | .bool _ => by simp [convert_refs_to_components, hasDefsRef]
  | .num _ => by simp [convert_refs_to_components, hasDefsRef]
  | .str _ => by simp [convert_refs_to_components, hasDefsRef]

/-- `convert_noDefs` for the entry loop. -/
theorem convertEntries_noDefs (l : List (String × Json)) (comps : Comps) :
    hasDefsRefEntries (convertEntries l comps).1 = false :=
  match l with
  | [] => by simp [convertEntries, hasDefsRefEntries]
  | (k, v) :: rest => by
    match v with
    | .obj es =>
      simp only [convertEntries]
      by_cases h1 : (k == "$defs" && isObjB (Json.obj es)) = true
      · simp only [h1, if_true]
        exact convertEntries_noDefs rest comps
      · simp only [h1, Bool.false_eq_true, if_false]
        have h2 : (k == "$ref" && isDefsRefStr (Json.obj es)) = false := by
          simp [isDefsRefStr]
        simp only [h2, Bool.false_eq_true, if_false, hasDefsRefEntries]
        rw [convertEntries_noDefs rest _, convert_noDefs (.obj es) comps,
          isDefsRefStr_of_isObj _ (by rw [convert_obj_eq]; rfl)]
        simp
    | .arr its =>
      simp only [convertEntries]
      have h1 : (k == "$defs" && isObjB (Json.arr its)) = false := by simp [isObjB]
      have h2 : (k == "$ref" && isDefsRefStr (Json.arr its)) = false := by
        simp [isDefsRefStr]
      simp only [h1, h2, Bool.false_eq_true, if_false, hasDefsRefEntries]
      have ha : hasDefsRef (.arr (convertItems its comps).1) =
          hasDefsRefItems (convertItems its comps).1 := rfl
      rw [ha, convertItems_noDefs its comps, convertEntries_noDefs rest _]
      simp [isDefsRefStr]
    | .str s =>
      simp only [convertEntries]
      have h1 : (k == "$defs" && isObjB (Json.str s)) = false := by simp [isObjB]
      simp only [h1, Bool.false_eq_true, if_false]
      by_cases h2 : (k == "$ref" && isDefsRefStr (Json.str s)) = true
      · simp only [h2, if_true, hasDefsRefEntries]
        rw [convertEntries_noDefs rest comps]
        have hd : hasDefsRef (rewriteRefVal (.str s)) = false := rfl
        have hr : isDefsRefStr (rewriteRefVal (.str s)) = false := by
          simp [rewriteRefVal, isDefsRefStr, startswithDefs_rewriteRef]
        rw [hd, hr]
        simp
      · simp only [h2, Bool.false_eq_true, if_false, hasDefsRefEntries]
        rw [convertEntries_noDefs rest comps]
        have hd : hasDefsRef (Json.str s) = false := rfl
        rw [hd]
        simp
    | .null =>
      simp only [convertEntries]
      have h1 : (k == "$defs" && isObjB Json.null) = false := by simp [isObjB]
      have h2 : (k == "$ref" && isDefsRefStr Json.null) = false := by simp [isDefsRefStr]
      simp only [h1, h2, Bool.false_eq_true, if_false, hasDefsRefEntries]
      rw [convertEntries_noDefs rest comps]
      simp [isDefsRefStr, hasDefsRef]
    | .bool b =>
      simp only [convertEntries]
      have h1 : (k == "$defs" && isObjB (Json.bool b)) = false := by simp [isObjB]
      have h2 : (k == "$ref" && isDefsRefStr (Json.bool b)) = false := by
        simp [isDefsRefStr]
      simp only [h1, h2, Bool.false_eq_true, if_false, hasDefsRefEntries]
      rw [convertEntries_noDefs rest comps]
      simp [isDefsRefStr, hasDefsRef]
    | .num q =>
      simp only [convertEntries]
      have h1 : (k == "$defs" && isObjB (Json.num q)) = false := by simp [isObjB]
      have h2 : (k == "$ref" && isDefsRefStr (Json.num q)) = false := by
        simp [isDefsRefStr]
      simp only [h1, h2, Bool.false_eq_true, if_false, hasDefsRefEntries]
      rw [convertEntries_noDefs rest comps]
      simp [isDefsRefStr, hasDefsRef]

/-- `convert_noDefs` for the list branch. -/
theorem convertItems_noDefs (l : List Json) (comps : Comps) :
    hasDefsRefItems (convertItems l comps).1 = false :=
  match l with
  | [] => by simp [convertItems, hasDefsRefItems]
  | .obj es :: rest => by
    simp only [convertItems, hasDefsRefItems_cons]
    have h1 : hasDefsRef (convert_refs_to_components (.obj es) comps).1 = false :=
      convert_noDefs (.obj es) comps
    rw [convert_obj_eq] at h1 ⊢
    simp only [hasDefsRef] at h1
    simp [h1, convertItems_noDefs rest _]
  | .null :: rest => by
    simp only [convertItems, hasDefsRefItems_cons]
    simp [convertItems_noDefs rest comps]
  | .bool b :: rest => by
    simp only [convertItems, hasDefsRefItems_cons]
    simp [convertItems_noDefs rest comps]
  | .num q :: rest => by
    simp only [convertItems, hasDefsRefItems_cons]
    simp [convertItems_noDefs rest comps]
  | .str s :: rest => by
    simp only [convertItems, hasDefsRefItems_cons]
    simp [convertItems_noDefs rest comps]
  | .arr its :: rest => by
    simp only [convertItems, hasDefsRefItems_cons]
    simp [convertItems_noDefs rest comps]

end

theorem hoistDefs_append (defs : List (String × Json)) (comps : Comps) :
    ∃ t, hoistDefs defs comps = comps ++ t := by
  induction defs generalizing comps with
  | nil => exact ⟨[], by simp [hoistDefs]⟩
  | cons kv rest ih =>
    rw [hoistDefs_cons]
    by_cases hp : (comps.lookup kv.1).isSome
    · rw [if_pos hp]; exact ih comps
    · rw [if_neg hp]
      obtain ⟨t, ht⟩ := ih (comps ++ [kv])
      exact ⟨[kv] ++ t, by rw [ht, List.append_assoc]⟩

theorem defsComps_append (entries : List (String × Json)) (comps : Comps) :
    ∃ t, defsComps entries comps = comps ++ t := by
  rw [defsComps]
  match entries.lookup "$defs" with
  | some (.obj defs) => exact hoistDefs_append defs comps
  | some .null | some (.bool _) | some (.num _) | some (.str _) | some (.arr _) =>
    exact ⟨[], by simp⟩
  | none => exact ⟨[], by simp⟩

mutual

/-- The rewriting pass only ever appends to the shared components mapping:
hoisting adds entries at the end and nothing is removed or replaced. -/
theorem convert_comps_append (j : Json) (comps : Comps) :
    ∃ t, (convert_refs_to_components j comps).2 = comps ++ t :=
  match j with
  | .obj entries => by
    rw [convert_obj_eq]
    obtain ⟨t0, h0⟩ := defsComps_append entries comps
    obtain ⟨t1, h1⟩ := convertEntries_comps_append entries (defsComps entries comps)
    exact ⟨t0 ++ t1, by rw [h1, h0, List.append_assoc]⟩
  | .arr items => by
    rw [convert_arr_eq]
    exact convertItems_comps_append items comps
  | .null => ⟨[], by simp [convert_refs_to_components]⟩
  | .bool _ => ⟨[], by simp [convert_refs_to_components]⟩
  | .num _ => ⟨[], by simp [convert_refs_to_components]⟩
  | .str _ => ⟨[], by simp [convert_refs_to_components]⟩

/-- `convert_comps_append` for the entry loop. -/
theorem convertEntries_comps_append (l : List (String × Json)) (comps : Comps) :
    ∃ t, (convertEntries l comps).2 = comps ++ t :=
  match l with
  | [] => ⟨[], by simp [convertEntries]⟩
  | (k, v) :: rest => by
    match v with
    | .obj es =>
      simp only [convertEntries]
      by_cases h1 : (k == "$defs" && isObjB (Json.obj es)) = true
      · simp only [h1, if_true]
        exact convertEntries_comps_append rest comps
      · simp only [h1, Bool.false_eq_true, if_false]
        have h2 : (k == "$ref" && isDefsRefStr (Json.obj es)) = false := by
          simp [isDefsRefStr]
        simp only [h2, Bool.false_eq_true, if_false]
        obtain ⟨t0, h0⟩ := convert_comps_append (.obj es) comps
        obtain ⟨t1, ht1⟩ :=
          convertEntries_comps_append rest (convert_refs_to_components (.obj es) comps).2
        exact ⟨t0 ++ t1, by rw [ht1, h0, List.append_assoc]⟩
    | .arr its =>
      simp only [convertEntries]
      have h1 : (k == "$defs" && isObjB (Json.arr its)) = false := by simp [isObjB]
      have h2 : (k == "$ref" && isDefsRefStr (Json.arr its)) = false := by
        simp [isDefsRefStr]
      simp only [h1, h2, Bool.false_eq_true, if_false]
      obtain ⟨t0, h0⟩ := convertItems_comps_append its comps
      obtain ⟨t1, ht1⟩ := convertEntries_comps_append rest (convertItems its comps).2
      exact ⟨t0 ++ t1, by rw [ht1, h0, List.append_assoc]⟩
    | .str s =>
      simp only [convertEntries]
      have h1 : (k == "$defs" && isObjB (Json.str s)) = false := by simp [isObjB]
      simp only [h1, Bool.false_eq_true, if_false]
      by_cases h2 : (k == "$ref" && isDefsRefStr (Json.str s)) = true
      · simp only [h2, if_true]
        exact convertEntries_comps_append rest comps
      · simp only [h2, Bool.false_eq_true, if_false]
        exact convertEntries_comps_append rest comps
    | .null =>
      simp only [convertEntries]
      have h1 : (k == "$defs" && isObjB Json.null) = false := by simp [isObjB]
      have h2 : (k == "$ref" && isDefsRefStr Json.null) = false := by simp [isDefsRefStr]
      simp only [h1, h2, Bool.false_eq_true, if_false]
      exact convertEntries_comps_append rest comps
    | .bool b =>
      simp only [convertEntries]
      have h1 : (k == "$defs" && isObjB (Json.bool b)) = false := by simp [isObjB]
      have h2 : (k == "$ref" && isDefsRefStr (Json.bool b)) = false := by
        simp [isDefsRefStr]
      simp only [h1, h2, Bool.false_eq_true, if_false]
      exact convertEntries_comps_append rest comps
    | .num q =>
      simp only [convertEntries]
      have h1 : (k == "$defs" && isObjB (Json.num q)) = false := by simp [isObjB]
      have h2 : (k == "$ref" && isDefsRefStr (Json.num q)) = false := by
        simp [isDefsRefStr]
      simp only [h1, h2, Bool.false_eq_true, if_false]
      exact convertEntries_comps_append rest comps

/-- `convert_comps_append` for the list branch. -/
theorem convertItems_comps_append (l : List Json) (comps : Comps) :
    ∃ t, (convertItems l comps).2 = comps ++ t :=
  match l with
  | [] => ⟨[], by simp [convertItems]⟩
  | .obj es :: rest => by
    simp only [convertItems]
    obtain ⟨t0, h0⟩ := convert_comps_append (.obj es) comps
    obtain ⟨t1, ht1⟩ :=
      convertItems_comps_append rest (convert_refs_to_components (.obj es) comps).2
    exact ⟨t0 ++ t1, by rw [ht1, h0, List.append_assoc]⟩
  | .null :: rest => by
    simp only [convertItems]
    exact convertItems_comps_append rest comps
  | .bool b :: rest => by
    simp only [convertItems]
    exact convertItems_comps_append rest comps
  | .num q :: rest => by
    simp only [convertItems]
    exact convertItems_comps_append rest comps
  | .str s :: rest => by
    simp only [convertItems]
    exact convertItems_comps_append rest comps
  | .arr its :: rest => by
    simp only [convertItems]
    exact convertItems_comps_append rest comps

end

theorem lookup_isSome_append {β : Type} (l t : List (String × β)) (n : String)
    (h : (l.lookup n).isSome = true) : ((l ++ t).lookup n).isSome = true := by
  obtain ⟨v, hv⟩ := Option.isSome_iff_exists.mp h
  rw [lookup_append_left hv]
  rfl

theorem hoistDefs_mem_isSome (defs : List (String × Json)) (comps : Comps) (n : String)
    (h : n ∈ defs.map Prod.fst) : ((hoistDefs defs comps).lookup n).isSome = true := by
  induction defs generalizing comps with
  | nil => simp at h
  | cons kv rest ih =>
    rw [hoistDefs_cons]
    rw [List.map_cons] at h
    rcases List.mem_cons.mp h with he | he
    · subst he
      have hsome : ((if (comps.lookup kv.1).isSome then comps
          else comps ++ [kv]).lookup kv.1).isSome = true := by
        by_cases hp : (comps.lookup kv.1).isSome
        · rw [if_pos hp]; exact hp
        · rw [if_neg hp]
          have hn : comps.lookup kv.1 = none := by
            cases hc : comps.lookup kv.1
            · rfl
            · rw [hc] at hp; simp at hp
          rw [lookup_append_none hn]
          simp [List.lookup]
      obtain ⟨v, hv⟩ := Option.isSome_iff_exists.mp hsome
      rw [hoistDefs_preserve rest _ kv.1 v hv]
      rfl
    · exact ih _ he

theorem convertEntries_lookup_mono (l : List (String × Json)) (comps : Comps) (n : String)
    (h : (comps.lookup n).isSome = true) :
    (((convertEntries l comps).2).lookup n).isSome = true := by
  obtain ⟨t, ht⟩ := convertEntries_comps_append l comps
  rw [ht]
  exact lookup_isSome_append comps t n h

theorem convert_lookup_mono (j : Json) (comps : Comps) (n : String)
    (h : (comps.lookup n).isSome = true) :
    (((convert_refs_to_components j comps).2).lookup n).isSome = true := by
  obtain ⟨t, ht⟩ := convert_comps_append j comps
  rw [ht]
  exact lookup_isSome_append comps t n h

/-- Every type in a schema fragment's root `$defs` block ends up present in
the shared components after the rewriting pass (either it was already
there, or hoisting added it). -/
theorem convert_fragment_covers (env : Env) (t : PyType) (comps : Comps) (n : String)
    (hn : n ∈ reach env (structRefsOf t)) :
    (((convert_refs_to_components (msgspec_json_schema env t) comps).2).lookup n).isSome =
      true := by
  have hnonempty : (reach env (structRefsOf t)).isEmpty = false := by
    cases hr : reach env (structRefsOf t) with
    | nil => rw [hr] at hn; simp at hn
    | cons a l => simp [List.isEmpty]
  obtain ⟨es, hes⟩ : ∃ es, rootSchema defsTpl t = .obj es := by
    cases t <;> exact ⟨_, rfl⟩
  have hfrag : msgspec_json_schema env t =
      .obj (("$defs", .obj ((reach env (structRefsOf t)).map
        (fun m => (m, structSchema env defsTpl m)))) :: es) := by
    rw [msgspec_json_schema, hnonempty, hes]
    simp
  rw [hfrag, convert_obj_eq]
  refine convertEntries_lookup_mono _ _ n ?_
  have hdc : defsComps (("$defs", .obj ((reach env (structRefsOf t)).map
      (fun m => (m, structSchema env defsTpl m)))) :: es) comps =
      hoistDefs ((reach env (structRefsOf t)).map
        (fun m => (m, structSchema env defsTpl m))) comps := by
    rw [defsComps]
    simp [List.lookup]
  rw [hdc]
  refine hoistDefs_mem_isSome _ comps n ?_
  simpa [List.map_map, Function.comp] using hn

theorem hasDefsRefEntries_lookup (entries : List (String × Json)) (k : String) (v : Json)
    (h : hasDefsRefEntries entries = false) (hl : entries.lookup k = some v) :
    hasDefsRef v = false := by
  induction entries with
  | nil => simp [List.lookup] at hl
  | cons kv rest ih =>
    obtain ⟨k0, v0⟩ := kv
    simp only [hasDefsRefEntries, Bool.or_eq_false_iff] at h
    by_cases hk : k == k0
    · simp only [List.lookup, hk, if_true, Option.some.injEq] at hl
      rw [← hl]
      exact h.1.2
    · simp only [List.lookup, hk, Bool.false_eq_true, if_false] at hl
      exact ih h.2 hl

theorem hasDefsRef_objGetD (o : Json) (k : String) (h : hasDefsRef o = false) :
    hasDefsRef (objGetD o k) = false := by
  cases o with
  | obj entries =>
    rw [objGetD, objLookup]
    cases hl : entries.lookup k with
    | none => rfl
    | some v =>
      simp only [Option.getD_some]
      exact hasDefsRefEntries_lookup entries k v h hl
  | null => rfl
  | bool b => rfl
  | num q => rfl
  | str s => rfl
  | arr items => rfl

theorem hasDefsRefEntries_setAssoc (entries : List (String × Json)) (k : String) (v : Json)
    (hk : (k == "$ref") = false) (ho : hasDefsRefEntries entries = false)
    (hv : hasDefsRef v = false) :
    hasDefsRefEntries (setAssoc entries k v) = false := by
  induction entries with
  | nil =>
    simp only [setAssoc, hasDefsRefEntries]
    cases hvs : v <;> simp_all [isDefsRefStr, hasDefsRef]
  | cons kv rest ih =>
    obtain ⟨k0, v0⟩ := kv
    simp only [hasDefsRefEntries, Bool.or_eq_false_iff] at ho
    by_cases h0 : k0 == k
    · have h0' : k0 = k := by simpa using h0
      subst h0'
      simp only [setAssoc, beq_self_eq_true, if_true, hasDefsRefEntries,
        Bool.or_eq_false_iff]
      refine ⟨⟨?_, hv⟩, ho.2⟩
      rw [hk]
      rfl
    · simp only [setAssoc, h0, Bool.false_eq_true, if_false, hasDefsRefEntries,
        Bool.or_eq_false_iff]
      exact ⟨ho.1, ih ho.2⟩

theorem hasDefsRef_objSet (o : Json) (k : String) (v : Json)
    (hk : (k == "$ref") = false) (ho : hasDefsRef o = false) (hv : hasDefsRef v = false) :
    hasDefsRef (objSet o k v) = false := by
  cases o with
  | obj entries => exact hasDefsRefEntries_setAssoc entries k v hk ho hv
  | null => exact ho
  | bool b => exact ho
  | num q => exact ho
  | str s => exact ho
  | arr items => exact ho

theorem hasDefsRefItems_map_str (l : List String) :
    hasDefsRefItems (l.map Json.str) = false := by
  induction l with
  | nil => rfl
  | cons a rest ih => simpa [hasDefsRefItems] using ih

theorem hasDefsRef_baseOperation (r : RouteInfo) : hasDefsRef (baseOperation r) = false := by
  simp [baseOperation, hasDefsRef, hasDefsRefEntries, validationErrorResponse, isDefsRefStr,
    hasDefsRefItems_map_str]

theorem routeOperation_clean (env : Env) (r : RouteInfo) (comps : Comps) :
    hasDefsRef (routeOperation env r comps).1 = false := by
  have haddB : ∀ (op : Json) (cs : Comps), hasDefsRef op = false →
      hasDefsRef (addBodySchema env r op cs).1 = false := by
    intro op cs hop
    rw [addBodySchema]
    cases hb : r.body_param with
    | none => exact hop
    | some pr =>
      have hq := convert_noDefs (msgspec_json_schema env pr.2) cs
      refine hasDefsRef_objSet _ _ _ (by decide) hop ?_
      simp [hasDefsRef, hasDefsRefEntries, isDefsRefStr, hq]
  have haddR : ∀ (op : Json) (cs : Comps), hasDefsRef op = false →
      hasDefsRef (addReturnSchema env r op cs).1 = false := by
    intro op cs hop
    rw [addReturnSchema]
    cases hrt : r.return_type with
    | none => exact hop
    | some t =>
      have hq := convert_noDefs (msgspec_json_schema env t) cs
      have hresp : hasDefsRef (objGetD op "responses") = false :=
        hasDefsRef_objGetD _ _ hop
      have h200 : hasDefsRef (objGetD (objGetD op "responses") "200") = false :=
        hasDefsRef_objGetD _ _ hresp
      have hX : hasDefsRef (.obj [("application/json",
          .obj [("schema",
            (convert_refs_to_components (msgspec_json_schema env t) cs).1)])]) = false := by
        simp [hasDefsRef, hasDefsRefEntries, isDefsRefStr, hq]
      refine hasDefsRef_objSet _ _ _ (by decide) hop ?_
      refine hasDefsRef_objSet _ _ _ (by decide) hresp ?_
      exact hasDefsRef_objSet _ _ _ (by decide) h200 hX
  simp only [routeOperation]
  exact haddR _ _ (haddB _ _ (hasDefsRef_baseOperation r))

/-- No operation stored in the `paths` section contains a `#/$defs/…`
reference. -/
def pathsClean (paths : Paths) : Bool :=
  paths.all (fun pe => pe.2.all (fun me => !hasDefsRef me.2))

theorem lookup_all {β : Type} (Q : β → Bool) (l : List (String × β)) (k : String) (v : β)
    (hl : l.all (fun e => Q e.2) = true) (h : l.lookup k = some v) : Q v = true := by
  induction l with
  | nil => simp [List.lookup] at h
  | cons kv rest ih =>
    simp only [List.all_cons, Bool.and_eq_true] at hl
    by_cases hk : k == kv.1
    · obtain ⟨k0, v0⟩ := kv
      simp only [List.lookup, hk, if_true, Option.some.injEq] at h
      rw [← h]
      exact hl.1
    · obtain ⟨k0, v0⟩ := kv
      simp only [List.lookup, hk, Bool.false_eq_true, if_false] at h
      exact ih hl.2 h

theorem setAssoc_all {β : Type} (Q : β → Bool) (l : List (String × β)) (k : String) (v : β)
    (hl : l.all (fun e => Q e.2) = true) (hv : Q v = true) :
    (setAssoc l k v).all (fun e => Q e.2) = true := by
  induction l with
  | nil => simp [setAssoc, hv]
  | cons kv rest ih =>
    obtain ⟨k0, v0⟩ := kv
    simp only [List.all_cons, Bool.and_eq_true] at hl
    by_cases h0 : k0 == k
    · simp [setAssoc, h0, hv, hl.2]
    · simp only [setAssoc, h0, Bool.false_eq_true, if_false, List.all_cons,
        Bool.and_eq_true]
      exact ⟨hl.1, ih hl.2⟩

theorem pathsSet_clean (paths : Paths) (p m : String) (op : Json)
    (h : pathsClean paths = true) (hop : hasDefsRef op = false) :
    pathsClean (pathsSet paths p m op) = true := by
  rw [pathsSet, pathsClean]
  rw [pathsClean] at h
  refine setAssoc_all (fun ms => ms.all (fun me => !hasDefsRef me.2)) paths p _ h ?_
  have hms : ((paths.lookup p).getD []).all (fun me => !hasDefsRef me.2) = true := by
    cases hl : paths.lookup p with
    | none => rfl
    | some ms =>
      simp only [Option.getD_some]
      exact lookup_all (fun ms => ms.all (fun me => !hasDefsRef me.2)) paths p ms h hl
  refine setAssoc_all (fun o => !hasDefsRef o) _ m op hms ?_
  simp [hop]

theorem routeStep_clean (env : Env) (st : Paths × Comps) (r : RouteInfo)
    (h : pathsClean st.1 = true) : pathsClean (routeStep env st r).1 = true := by
  rw [routeStep]
  refine pathsSet_clean _ _ _ _ ?_ (routeOperation_clean env r st.2)
  by_cases hp : (st.1.lookup r.path).isSome
  · simpa [hp] using h
  · simp only [hp, Bool.false_eq_true, if_false]
    rw [pathsClean, List.all_append]
    rw [pathsClean] at h
    simp [h]

theorem foldl_routeStep_clean (env : Env) (routes : List RouteInfo) (st : Paths × Comps)
    (h : pathsClean st.1 = true) :
    pathsClean (routes.foldl (routeStep env) st).1 = true := by
  induction routes generalizing st with
  | nil => exact h
  | cons r rest ih =>
    rw [List.foldl_cons]
    exact ih _ (routeStep_clean env st r h)

theorem addBodySchema_comps_mono (env : Env) (r : RouteInfo) (op : Json) (cs : Comps)
    (n : String) (h : (cs.lookup n).isSome = true) :
    (((addBodySchema env r op cs).2).lookup n).isSome = true := by
  rw [addBodySchema]
  cases hb : r.body_param with
  | none => exact h
  | some pr => exact convert_lookup_mono _ cs n h

theorem addReturnSchema_comps_mono (env : Env) (r : RouteInfo) (op : Json) (cs : Comps)
    (n : String) (h : (cs.lookup n).isSome = true) :
    (((addReturnSchema env r op cs).2).lookup n).isSome = true := by
  rw [addReturnSchema]
  cases hrt : r.return_type with
  | none => exact h
  | some t => exact convert_lookup_mono _ cs n h

theorem routeStep_comps_mono (env : Env) (st : Paths × Comps) (r : RouteInfo) (n : String)
    (h : (st.2.lookup n).isSome = true) :
    (((routeStep env st r).2).lookup n).isSome = true := by
  rw [routeStep]
  simp only [routeOperation]
  exact addReturnSchema_comps_mono env r _ _ n (addBodySchema_comps_mono env r _ st.2 n h)

theorem routeStep_covers (env : Env) (st : Paths × Comps) (r : RouteInfo) (t : PyType)
    (n : String) (ht : (∃ pn, r.body_param = some (pn, t)) ∨ r.return_type = some t)
    (hn : n ∈ reach env (structRefsOf t)) :
    (((routeStep env st r).2).lookup n).isSome = true := by
  rw [routeStep]
  simp only [routeOperation]
  rcases ht with ⟨pn, hb⟩ | hr
  · refine addReturnSchema_comps_mono env r _ _ n ?_
    rw [addBodySchema, hb]
    exact convert_fragment_covers env t st.2 n hn
  · rw [addReturnSchema, hr]
    exact convert_fragment_covers env t _ n hn

theorem foldl_comps_mono (env : Env) (routes : List RouteInfo) (st : Paths × Comps)
    (n : String) (h : (st.2.lookup n).isSome = true) :
    (((routes.foldl (routeStep env) st).2).lookup n).isSome = true := by
  induction routes generalizing st with
  | nil => exact h
  | cons r rest ih =>
    rw [List.foldl_cons]
    exact ih _ (routeStep_comps_mono env st r n h)

theorem foldl_covers (env : Env) (routes : List RouteInfo) (st : Paths × Comps)
    (r : RouteInfo) (t : PyType) (n : String) (hr : r ∈ routes)
    (ht : (∃ pn, r.body_param = some (pn, t)) ∨ r.return_type = some t)
    (hn : n ∈ reach env (structRefsOf t)) :
    (((routes.foldl (routeStep env) st).2).lookup n).isSome = true := by
  induction routes generalizing st with
  | nil => simp at hr
  | cons hd rest ih =>
    rw [List.foldl_cons]
    rcases List.mem_cons.mp hr with he | he
    · subst he
      exact foldl_comps_mono env rest _ n (routeStep_covers env st r t n ht hn)
    · exact ih _ he

theorem lookup_map_pair (l : List String) (f : String → Json) (n : String) (h : n ∈ l) :
    ((l.map (fun m => (m, f m))).lookup n).isSome = true := by
  induction l with
  | nil => simp at h
  | cons a rest ih =>
    rcases List.mem_cons.mp h with he | he
    · subst he
      simp [List.lookup]
    · by_cases ha : n == a
      · simp [List.lookup, ha]
      · simp only [List.map_cons, List.lookup, ha, Bool.false_eq_true, if_false]
        exact ih he

/-- C2 (amended): in every generated document, (a) no `#/$defs/…` reference
remains anywhere in the `paths` section — every reference placed in an
operation went through the rewriting pass; (b) every struct transitively
reachable from any route's body or return type is present as a named entry
under `components.schemas` (seeded by `schema_components` or hoisted from
the route's fragment); and (c) so is every struct reachable from the
registered model set.  What the original claim wrongly adds is that no
`#/$defs/…` reference survives inside `components.schemas` itself: entries
hoisted from a fragment's local `$defs` block are copied verbatim, so
references inside them keep the `#/$defs/…` form (see the counterexample)
unless the schema for that name was already seeded from the model set. -/
theorem c2_paths_clean_components_complete (env : Env) (models : List PyType)
    (routes : List RouteInfo) :
    pathsClean (generate_openapi_schema env models routes).paths = true ∧
    (∀ r ∈ routes, ∀ t : PyType,
      ((∃ pn, r.body_param = some (pn, t)) ∨ r.return_type = some t) →
      ∀ n ∈ reach env (structRefsOf t),
        (((generate_openapi_schema env models routes).componentSchemas).lookup n).isSome =
          true) ∧
    (∀ n ∈ reach env (models.foldl (fun acc t => (structRefsOf t).foldl insertName acc) []),
      (((generate_openapi_schema env models routes).componentSchemas).lookup n).isSome =
        true) := by
  refine ⟨?_, ?_, ?_⟩
  · simp only [generate_openapi_schema]
    exact foldl_routeStep_clean env routes _ rfl
  · intro r hr t ht n hn
    simp only [generate_openapi_schema]
    exact foldl_covers env routes _ r t n hr ht hn
  · intro n hn
    simp only [generate_openapi_schema]
    refine foldl_comps_mono env routes _ n ?_
    rw [msgspec_schema_components]
    exact lookup_map_pair _ _ n hn

/-- C2 (witness): for the test scenario — `GET /items/` returning
`List[Item]` and `POST /items/` taking `Body[Item]`, with `Item` in the
model set — the paths section is free of `#/$defs/…` references and `Item`
appears under `components.schemas`, reached through both the body type of
the POST route and the model set. -/
theorem c2_paths_clean_components_complete_witness :
    pathsClean (generate_openapi_schema envItem [.pStruct "Item"]
      [rGetItems, rCreateItem]).paths = true ∧
    (((generate_openapi_schema envItem [.pStruct "Item"]
      [rGetItems, rCreateItem]).componentSchemas).lookup "Item").isSome = true := by
  have h := c2_paths_clean_components_complete envItem [.pStruct "Item"]
    [rGetItems, rCreateItem]
  refine ⟨h.1, h.2.1 rCreateItem (List.Mem.tail _ (List.Mem.head _)) (.pStruct "Item")
    (Or.inl ⟨"body", rfl⟩) "Item" (by decide)⟩
